import Mathlib

/-!
Verification development for the dfc Dockerfile converter.

The Go sources in `pkg/dfc/dfc.go` are shallowly embedded below.  Go strings
are modelled as lists of characters (`Str`); Go maps used as sets are modelled
as lists with membership; Go's `(value, bool, error)` returns are modelled as
tuples with an `Option` error component.  The shell parser (`shell.go`) is not
part of the available sources; the definitions that replace it are marked
`Modelled from the spec:` and follow the specification text (section 4.2 and
4.5) for `ShellPart`, `ParseMultilineShell`, serialization, and the busybox
command rewriters.  Everything else is translated from `dfc.go`.
-/

/-- Go strings are modelled as lists of characters. -/
abbrev Str : Type := List Char

/-- Embed a Lean string literal as a modelled Go string. -/
def str (s : String) : Str := s.data

/-- The newline character used by the parser and serializer. -/
def nlChar : Char := '\n'

/-- Characters accepted by Go's `unicode.IsSpace` (Latin-1 range). -/
def isSpaceChar (c : Char) : Bool :=
  c = ' ' || c = '\t' || c = '\n' || c = '\u000b' || c = '\u000c' || c = '\r' ||
  c = '\u0085' || c = ' '

/-- Drop the longest suffix of characters satisfying `p`. -/
def dropRightWhile (p : Char → Bool) (s : Str) : Str :=
  (s.reverse.dropWhile p).reverse

/-- Go `strings.TrimSpace`. -/
def trimSpace (s : Str) : Str :=
  dropRightWhile isSpaceChar (s.dropWhile isSpaceChar)

/-- Go `strings.ToUpper` (character-wise, as used on ASCII directives). -/
def toUpperStr (s : Str) : Str := s.map Char.toUpper

/-- Go `strings.ToLower` (character-wise). -/
def toLowerStr (s : Str) : Str := s.map Char.toLower

/-- The `strHasPre p s` is Go `strings.HasPrefix(s, p)`. -/
def strHasPre : Str → Str → Bool
  | [], _ => true
  | _ :: _, [] => false
  | p :: ps, c :: cs => p = c && strHasPre ps cs

/-- The `strHasSuf p s` is Go `strings.HasSuffix(s, p)`. -/
def strHasSuf (p s : Str) : Bool := strHasPre p.reverse s.reverse

/-- The `containsSub s pat` is Go `strings.Contains(s, pat)`. -/
def containsSub : Str → Str → Bool
  | [], pat => pat.isEmpty
  | c :: cs, pat => strHasPre pat (c :: cs) || containsSub cs pat

/-- The `indexOfSub s pat` is Go `strings.Index(s, pat)` (`none` for `-1`). -/
def indexOfSub : Str → Str → Option Nat
  | [], pat => if pat.isEmpty then some 0 else none
  | c :: cs, pat =>
    if strHasPre pat (c :: cs) then some 0 else (indexOfSub cs pat).map (· + 1)

/-- Go `strings.Split(s, string(c))` for a one-character separator. -/
def splitOnChar (c : Char) : Str → List Str
  | [] => [[]]
  | x :: xs =>
    match splitOnChar c xs with
    | [] => [[]]
    | y :: ys => if x = c then [] :: y :: ys else (x :: y) :: ys

/-- Go `strings.SplitN(s, string(c), 2)`: split at the first occurrence. -/
def splitFirstOn (c : Char) : Str → Option (Str × Str)
  | [] => none
  | x :: xs =>
    if x = c then some ([], xs)
    else (splitFirstOn c xs).map (fun p => (x :: p.1, p.2))

/-- Go `strings.TrimSuffix`: remove one copy of `suf` if present. -/
def trimOneSuffix (suf s : Str) : Str :=
  if strHasSuf suf s then s.take (s.length - suf.length) else s

/-- Value of an all-digit string, `none` otherwise (helper for `atoiInt`). -/
def digitsVal : Str → Option Nat
  | [] => none
  | ds =>
    if ds.all Char.isDigit then
      some (ds.foldl (fun a c => a * 10 + (c.toNat - '0'.toNat)) 0)
    else none

/-- Go `strconv.Atoi` (without the 64-bit overflow error, which the tag
digits used here never reach). -/
def atoiInt : Str → Option Int
  | '+' :: ds => (digitsVal ds).map Int.ofNat
  | '-' :: ds => (digitsVal ds).map (fun n => -(n : Int))
  | ds => (digitsVal ds).map Int.ofNat

/-- Decimal digits of a natural number (helper for `fmt.Sprintf("%d", _)`). -/
def natToStr (n : Nat) : Str := Nat.toDigits 10 n

/-- Go `fmt.Sprintf("%d", i)` for an integer. -/
def intToStr (i : Int) : Str :=
  if i < 0 then '-' :: natToStr i.natAbs else natToStr i.toNat

/-- Go `path/filepath.Base` on unix paths. -/
def filepathBase (path : Str) : Str :=
  if path = [] then str "."
  else
    let p := dropRightWhile (fun c => c = '/') path
    let seg := ((splitOnChar '/' p).getLast?).getD []
    if seg = [] then ['/'] else seg

/-- The `FromDetails` from dfc.go (`Alias` is spelled `aliasName`: `alias` is a
command name in the ambient library). -/
structure FromDetails where
  base : Str := []
  tag : Str := []
  digest : Str := []
  aliasName : Str := []
  parent : Int := 0
  baseDynamic : Bool := false
  tagDynamic : Bool := false
  orig : Str := []
deriving Repr, DecidableEq

/-- The `ArgDetails` from dfc.go. -/
structure ArgDetails where
  name : Str := []
  defaultValue : Str := []
  usedAsBase : Bool := false
deriving Repr, DecidableEq

/-- The `ShellPart`.  `extraPre`, `command`, `args`, `delimiter` are the fields of
the specification's shell model (section 4.2), which dfc.go's
`cloneShellPart` and `convertBusyboxCommands` use; `value` is the additional
field that dfc.go's `convertPackageManagerCommands` reads and writes.  The
spec-modelled parser below never populates `value`, and `cloneShellPart`
does not copy it. -/
structure ShellPart where
  extraPre : Str := []
  command : Str := []
  args : List Str := []
  delimiter : Str := []
  value : Str := []
deriving Repr, DecidableEq

/-- The `ShellCommand`. -/
structure ShellCommand where
  parts : List ShellPart := []
deriving Repr, DecidableEq

/-- The `RunDetailsShell` from dfc.go. -/
structure RunDetailsShell where
  before : Option ShellCommand := none
  after : Option ShellCommand := none
deriving Repr, DecidableEq

/-- The `RunDetails` from dfc.go (`Distro` and `Manager` are Go string types). -/
structure RunDetails where
  distro : Str := []
  manager : Str := []
  packages : List Str := []
  shell : Option RunDetailsShell := none
deriving Repr, DecidableEq

/-- The `DockerfileLine` from dfc.go (`From` is spelled `fromD`: `from` is a Lean
keyword). -/
structure DockerfileLine where
  raw : Str := []
  converted : Str := []
  extra : Str := []
  stage : Int := 0
  fromD : Option FromDetails := none
  run : Option RunDetails := none
  arg : Option ArgDetails := none
deriving Repr, DecidableEq

/-- The `Dockerfile` from dfc.go. -/
structure Dockerfile where
  lines : List DockerfileLine := []
deriving Repr, DecidableEq

/-- The per-line output of `Dockerfile.String` for a line that is not the
last: `Extra`, then `Converted` (with a newline) if present, else `Raw` with a
newline when `Raw` is nonempty. -/
def lineRenderMid (l : DockerfileLine) : Str :=
  l.extra ++
    (if l.converted ≠ [] then l.converted ++ [nlChar]
     else if l.raw ≠ [] then l.raw ++ [nlChar]
     else [])

/-- The per-line output of `Dockerfile.String` for the last line: as
`lineRenderMid` but no newline is appended after `Raw`. -/
def lineRenderLast (l : DockerfileLine) : Str :=
  l.extra ++
    (if l.converted ≠ [] then l.converted ++ [nlChar]
     else if l.raw ≠ [] then l.raw
     else [])

/-- The `Dockerfile.String` from dfc.go, with the index-based loop (`i <
len(d.Lines)-1` decides the trailing newline) rendered as structural
recursion on the line list. -/
def renderLines : List DockerfileLine → Str
  | [] => []
  | [l] => lineRenderLast l
  | l :: ls => lineRenderMid l ++ renderLines ls

/-- The `Dockerfile.String`. -/
def Dockerfile.toStr (d : Dockerfile) : Str := renderLines d.lines

/-- Modelled from the spec: shell.go (the shell parser and model) is not
among the available sources.  Tokens produced by the tokenizer: a word, or a
top-level delimiter (`&&`, `||`, `;`, `|`, `&`). -/
inductive ShTok where
  | word (w : Str)
  | delim (d : Str)
deriving Repr, DecidableEq

/-- Close the current token, if nonempty (tokenizer helper). -/
def shFlush (cur : Str) (acc : List ShTok) : List ShTok :=
  if cur = [] then acc else acc ++ [ShTok.word cur]

/-- Modelled from the spec: tokenizer for the shell parser (section 4.2).
Delimiters are recognized only outside single/double quotes; `&&` and `||`
take precedence over `&` and `|`; a backslash-newline continuation is
insignificant whitespace; quoted text is kept verbatim inside its token.
The spec's `ExtraPre` recording of continuation whitespace is omitted; no
theorem below depends on it. -/
def shTokenizeGo : Str → Str → Bool → Bool → List ShTok → List ShTok
  | [], cur, _, _, acc => shFlush cur acc
  | [c], cur, inS, inD, acc =>
    if inS then shTokenizeGo [] (cur ++ [c]) (c ≠ '\'') inD acc
    else if inD then shTokenizeGo [] (cur ++ [c]) inS (c ≠ '"') acc
    else if c = '&' then shFlush cur acc ++ [ShTok.delim (str "&")]
    else if c = '|' then shFlush cur acc ++ [ShTok.delim (str "|")]
    else if c = ';' then shFlush cur acc ++ [ShTok.delim (str ";")]
    else if isSpaceChar c then shFlush cur acc
    else if c = '\'' then shTokenizeGo [] (cur ++ [c]) true false acc
    else if c = '"' then shTokenizeGo [] (cur ++ [c]) false true acc
    else shTokenizeGo [] (cur ++ [c]) false false acc
  | c1 :: c2 :: cs, cur, inS, inD, acc =>
    if inS then shTokenizeGo (c2 :: cs) (cur ++ [c1]) (c1 ≠ '\'') inD acc
    else if inD then shTokenizeGo (c2 :: cs) (cur ++ [c1]) inS (c1 ≠ '"') acc
    else if c1 = '&' && c2 = '&' then
      shTokenizeGo cs [] false false (shFlush cur acc ++ [ShTok.delim (str "&&")])
    else if c1 = '|' && c2 = '|' then
      shTokenizeGo cs [] false false (shFlush cur acc ++ [ShTok.delim (str "||")])
    else if c1 = '&' then
      shTokenizeGo (c2 :: cs) [] false false (shFlush cur acc ++ [ShTok.delim (str "&")])
    else if c1 = '|' then
      shTokenizeGo (c2 :: cs) [] false false (shFlush cur acc ++ [ShTok.delim (str "|")])
    else if c1 = ';' then
      shTokenizeGo (c2 :: cs) [] false false (shFlush cur acc ++ [ShTok.delim (str ";")])
    else if c1 = '\\' && c2 = nlChar then
      shTokenizeGo cs [] false false (shFlush cur acc)
    else if isSpaceChar c1 then
      shTokenizeGo (c2 :: cs) [] false false (shFlush cur acc)
    else if c1 = '\'' then shTokenizeGo (c2 :: cs) (cur ++ [c1]) true false acc
    else if c1 = '"' then shTokenizeGo (c2 :: cs) (cur ++ [c1]) false true acc
    else shTokenizeGo (c2 :: cs) (cur ++ [c1]) false false acc

/-- Modelled from the spec: group tokens into `ShellPart`s; the first word of
a part is `Command`, later words are `Args`, a delimiter ends the part, the
last part has an empty delimiter (section 4.2). -/
def shGroupGo : List ShTok → List Str → List ShellPart
  | [], words =>
    match words with
    | [] => []
    | w :: ws => [{ command := w, args := ws }]
  | ShTok.word w :: ts, words => shGroupGo ts (words ++ [w])
  | ShTok.delim d :: ts, words =>
    (match words with
     | [] => ({ delimiter := d } : ShellPart)
     | w :: ws => { command := w, args := ws, delimiter := d }) :: shGroupGo ts []

/-- Modelled from the spec: `ParseMultilineShell` (shell.go is absent from
the sources).  Total; always returns a shell command (possibly with no
parts). -/
def ParseMultilineShell (s : Str) : ShellCommand :=
  ⟨shGroupGo (shTokenizeGo s [] false false []) []⟩

/-- Modelled from the spec: render one shell part as
`Command<space>args<space>delimiter` (section 4.2). -/
def shellPartRender (p : ShellPart) : Str :=
  p.command ++ (p.args.map (fun a => ' ' :: a)).flatten ++
    (if p.delimiter = [] then [] else ' ' :: p.delimiter)

/-- Modelled from the spec: serialization of a shell command, one logical
command per physical line, ` \` + newline + 4-space indent between parts. -/
def shellRenderGo : List ShellPart → Str
  | [] => []
  | [p] => shellPartRender p
  | p :: ps => shellPartRender p ++ str " \\" ++ [nlChar] ++ str "    " ++ shellRenderGo ps

/-- Modelled from the spec: `ShellCommand.String`. -/
def ShellCommand.render (c : ShellCommand) : Str := shellRenderGo c.parts

/-- Parser state of `ParseDockerfile`: the `extra` buffer, the current
instruction buffer, the multi-line flag, the current stage, the alias table,
and the emitted lines. -/
structure ParseState where
  extra : Str := []
  cur : Str := []
  inMulti : Bool := false
  stage : Int := 0
  aliases : List (Str × Int) := []
  lines : List DockerfileLine := []

/-- FROM-instruction parsing from `ParseDockerfile`: split on the first
case-insensitive ` AS `, record the alias (lower-cased) in the alias table,
strip `@digest`, split the first `:` for the tag, and resolve `Parent`
against the alias table (which already contains this line's alias, as in the
source). -/
def parseFromDetails (fromPart0 : Str) (stage : Int) (aliases : List (Str × Int)) :
    FromDetails × List (Str × Int) :=
  let asKw := str " AS "
  let (fromPart1, origImageRef, aliasStr, aliases1) :=
    match indexOfSub (toUpperStr fromPart0) asKw with
    | some asIndex =>
      let basePart := trimSpace (fromPart0.take asIndex)
      let aliasPart := trimSpace (fromPart0.drop (asIndex + asKw.length))
      (basePart, basePart, aliasPart, (toLowerStr aliasPart, stage) :: aliases)
    | none => (fromPart0, fromPart0, ([] : Str), aliases)
  let dParts := splitOnChar '@' fromPart1
  let (fromPart2, digest) :=
    if dParts.length > 1 then (((dParts.get? 0).getD []), ((dParts.get? 1).getD []))
    else (fromPart1, ([] : Str))
  let tParts := splitOnChar ':' fromPart2
  let (base, tag) :=
    if tParts.length > 1 then (((tParts.get? 0).getD []), ((tParts.get? 1).getD []))
    else (fromPart2, ([] : Str))
  let parent : Int := (List.lookup (toLowerStr base) aliases1).getD 0
  ({ base := base, tag := tag, digest := digest, aliasName := aliasStr, parent := parent,
     baseDynamic := containsSub base (str "$"), tagDynamic := containsSub tag (str "$"),
     orig := origImageRef }, aliases1)

/-- ARG-instruction parsing from `ParseDockerfile`: split on the first `=`
into trimmed name and default value. -/
def parseArgDetails (argPart : Str) : ArgDetails :=
  match splitFirstOn '=' argPart with
  | some p => { name := trimSpace p.1, defaultValue := trimSpace p.2 }
  | none => { name := argPart }

/-- The `processCurrentInstruction` from `ParseDockerfile`: classify the buffered
instruction by case-insensitive leading token, populate the variant payload,
append the line, and reset the buffers. -/
def emitLine (st : ParseState) : ParseState :=
  if st.cur = [] then st
  else
    let instruction := st.cur
    let trimmed := trimSpace instruction
    let upper := toUpperStr trimmed
    if strHasPre (str "FROM ") upper then
      let stage1 := st.stage + 1
      let fromPart := trimSpace (trimmed.drop (str "FROM ").length)
      let (fd, aliases1) := parseFromDetails fromPart stage1 st.aliases
      { st with
        lines := st.lines ++
          [{ raw := instruction, extra := st.extra, stage := stage1, fromD := some fd }],
        stage := stage1, aliases := aliases1, cur := [], extra := [] }
    else
      let line0 : DockerfileLine := { raw := instruction, extra := st.extra, stage := st.stage }
      let line1 :=
        if strHasPre (str "ARG ") upper then
          { line0 with arg := some (parseArgDetails (trimSpace (trimmed.drop 4))) }
        else if strHasPre (str "RUN ") upper then
          let sh : RunDetailsShell :=
            { before := some (ParseMultilineShell (trimSpace (trimmed.drop 4))) }
          let rd : RunDetails := { shell := some sh }
          { line0 with run := some rd }
        else line0
      { st with lines := st.lines ++ [line1], cur := [], extra := [] }

/-- One iteration of the line loop of `ParseDockerfile`. -/
def parseStep (st : ParseState) (line : Str) : ParseState :=
  let trimmedLine := trimSpace line
  if trimmedLine = [] then
    if st.inMulti then st else { st with extra := st.extra ++ line ++ [nlChar] }
  else if strHasPre (str "#") trimmedLine then
    if st.inMulti then st else { st with extra := st.extra ++ line ++ [nlChar] }
  else if st.inMulti then
    let cur1 := st.cur ++ line
    if strHasSuf (str "\\") trimmedLine then { st with cur := cur1 ++ [nlChar] }
    else emitLine { st with cur := cur1, inMulti := false }
  else
    if strHasSuf (str "\\") trimmedLine then
      { st with inMulti := true, cur := line ++ [nlChar] }
    else emitLine { st with cur := line }

/-- The `ParseDockerfile` from dfc.go: split on newlines, run the line loop,
process a pending multi-line instruction, and append a trailing line holding
leftover `extra` with one trailing newline removed. -/
def parseDockerfile (content : Str) : Dockerfile :=
  let ls := splitOnChar nlChar content
  let st1 := ls.foldl parseStep {}
  let st2 := if st1.inMulti then emitLine st1 else st1
  let outLines :=
    if st2.extra ≠ [] then st2.lines ++ [{ raw := trimOneSuffix [nlChar] st2.extra }]
    else st2.lines
  ⟨outLines⟩

/-- The `MappingProvider` interface from dfc.go: each method returns a
target, a found flag, and an optional error (Go's `error`). -/
structure MappingProvider where
  getImageMapping : Str → Str × Bool × Option Str
  getPackageMappings : Str → Str → List Str × Bool × Option Str

/-- The `Options` from dfc.go, restricted to the fields the conversion path
reads once a provider is in hand.  `Convert` always runs its per-line
conversions with `optsWithProvider` (organization, registry, the provider,
and the optional `FromLineConverter`); we model the runs where the provider
is supplied via `opts.MappingProvider` and no custom `FromLineConverter` is
installed, so the legacy `ExtraMappings` branch of `convertFromLine` and the
hook invocation are dead code and are omitted. -/
structure Options where
  organization : Str := []
  registry : Str := []
  mappingProvider : MappingProvider

/-- The `PackageManagerInfo` from dfc.go. -/
structure PackageManagerInfo where
  distro : Str := []
  installKeyword : Str := []
deriving Repr, DecidableEq

/-- Modelled from the spec: `getPackageManagerInfo` is called by dfc.go but
not defined in the available sources; per the spec (section 4.5) and the
`PackageManagerInfoMap` constant of dfc.go it returns the map entry for the
command, or the zero value when the command is not a package manager. -/
def getPackageManagerInfo (command : Str) : PackageManagerInfo :=
  if command == str "apt-get" || command == str "apt" then
    { distro := str "debian", installKeyword := str "install" }
  else if command == str "yum" || command == str "dnf" || command == str "microdnf" then
    { distro := str "fedora", installKeyword := str "install" }
  else if command == str "apk" then
    { distro := str "alpine", installKeyword := str "add" }
  else {}

/-- The package-collection loop (`for k := j + 1; ...`) of
`convertPackageManagerCommands`: walk the parts after the install keyword;
each `Value` that is not a flag and not an install keyword is recorded as
detected; a provider error skips the package, a mapping hit contributes the
targets, a miss keeps the original name. -/
def collectPackagesGo (provider : MappingProvider) (distro kw : Str) :
    List ShellPart → List Str × List Str
  | [] => ([], [])
  | p :: ps =>
    let (detRest, instRest) := collectPackagesGo provider distro kw ps
    let arg := p.value
    if !strHasPre (str "-") arg && arg != str "install" && arg != str "upgrade" &&
       arg != str "add" && arg != kw then
      let (targets, found, err) := provider.getPackageMappings distro arg
      let instHead :=
        if err.isSome then []
        else if found && !targets.isEmpty then targets
        else [arg]
      (arg :: detRest, instHead ++ instRest)
    else (detRest, instRest)

/-- The dedup loop of `convertPackageManagerCommands`: keep the first
occurrence of each nonempty package. -/
def dedupKeepFirstGo (seen : List Str) : List Str → List Str
  | [] => []
  | p :: ps =>
    if p == [] || seen.contains p then dedupKeepFirstGo seen ps
    else p :: dedupKeepFirstGo (p :: seen) ps

/-- The replacement command built by `convertPackageManagerCommands`: a part
with `Value "apk"`, a part with `Value "add"`, then one part per unique
package. -/
def buildApkParts (packagesToInstall : List Str) : List ShellPart :=
  ({ value := str "apk" } : ShellPart) :: ({ value := str "add" } : ShellPart) ::
    (dedupKeepFirstGo [] packagesToInstall).map (fun p => ({ value := p } : ShellPart))

/-- The outer part loop of `convertPackageManagerCommands`, carrying the
`distro`/`manager` variables, which persist across iterations.  At part `i`
whose `Value` is a package manager, the inner loop looks for the first part
from `i` on whose `Value` contains the install keyword; if found, packages
are collected from the rest of the list, the whole part list is replaced by
the unified command, and the loop breaks; otherwise scanning continues. -/
def pmGo (provider : MappingProvider) :
    List ShellPart → Str → Str → Bool × Str × Str × List Str × List Str × Option (List ShellPart)
  | [], distro, manager => (false, distro, manager, [], [], none)
  | part :: rest, distro, manager =>
    let info := getPackageManagerInfo part.value
    if info.distro != [] then
      let distro1 := info.distro
      let manager1 := part.value
      match List.findIdx? (fun p => containsSub p.value info.installKeyword) (part :: rest) with
      | some j =>
        let afterKw := (part :: rest).drop (j + 1)
        let (det, inst) := collectPackagesGo provider distro1 info.installKeyword afterKw
        (true, distro1, manager1, det, inst, some (buildApkParts inst))
      | none => pmGo provider rest distro1 manager1
    else pmGo provider rest distro manager

/-- The `cloneShellPart` from dfc.go (lines 1066-1077): it copies `ExtraPre`,
`Command`, `Delimiter` and `Args` — and not `Value`, which is left at its
zero value in the clone. -/
def cloneShellPart (part : ShellPart) : ShellPart :=
  { extraPre := part.extraPre, command := part.command,
    delimiter := part.delimiter, args := part.args }

/-- The `cloneShellCommand` from dfc.go: clone every part (the nil guard is
handled at the call sites, which hold an `Option ShellCommand`). -/
def cloneShellCommand (cmd : ShellCommand) : ShellCommand :=
  ⟨cmd.parts.map cloneShellPart⟩

/-- The `convertPackageManagerCommands` from dfc.go.  Returns
`(found, distro, manager, packagesDetected, packagesToInstall, newShell)`;
on a nil shell everything is zero, otherwise the shell is first deep-copied
with `cloneShellCommand` (line 980) and the detection loop runs over the
clone — whose `Value` fields are all empty, since `cloneShellPart` does not
copy them.  On an empty part list the clone is returned unconverted, and
when a package-manager install is found in the clone the part list is
replaced by the unified `apk` command parts. -/
def convertPackageManagerCommands (shell : Option ShellCommand) (provider : MappingProvider) :
    Bool × Str × Str × List Str × List Str × Option ShellCommand :=
  match shell with
  | none => (false, [], [], [], [], none)
  | some sh =>
    let newShell := cloneShellCommand sh
    if newShell.parts.isEmpty then (false, [], [], [], [], some newShell)
    else
      match pmGo provider newShell.parts [] [] with
      | (true, d, m, det, inst, some newParts) => (true, d, m, det, inst, some ⟨newParts⟩)
      | (found, d, m, det, inst, _) => (found, d, m, det, inst, some newShell)

/-- Modelled from the spec: `ConvertUserAddToAddUser` (absent from the
sources).  Rename to `adduser` and insert `-D` before the final (username)
argument: `-u N -g M -s S X` becomes `-u N -g M -s S -D X`, `-u N X` becomes
`-u N -D X`, bare `X` becomes `-D X` (section 4.5). -/
def ConvertUserAddToAddUser (p : ShellPart) : ShellPart :=
  let args :=
    match p.args.getLast? with
    | some last => p.args.dropLast ++ [str "-D", last]
    | none => p.args
  { p with command := str "adduser", args := args }

/-- Modelled from the spec: `ConvertGroupAddToAddGroup` (absent from the
sources).  Only the command is renamed; arguments are unchanged. -/
def ConvertGroupAddToAddGroup (p : ShellPart) : ShellPart :=
  { p with command := str "addgroup" }

/-- Modelled from the spec: `ConvertGNUTarToBusyboxTar` (absent from the
sources).  Remove the GNU-only `--no-same-owner` and
`--no-same-permissions` flags. -/
def ConvertGNUTarToBusyboxTar (p : ShellPart) : ShellPart :=
  { p with args := p.args.filter (fun a =>
      a != str "--no-same-owner" && a != str "--no-same-permissions") }

/-- The `CommandHandler` from dfc.go. -/
structure CommandHandler where
  command : Str
  converter : ShellPart → ShellPart
  skipIfShadowPresent : Bool := false

/-- The handler registry of `convertBusyboxCommands` (the `tar` command name
is the spec's; `CommandGNUTar` is absent from the sources). -/
def commandHandlers : List CommandHandler :=
  [{ command := str "useradd", converter := ConvertUserAddToAddUser, skipIfShadowPresent := true },
   { command := str "groupadd", converter := ConvertGroupAddToAddGroup, skipIfShadowPresent := true },
   { command := str "tar", converter := ConvertGNUTarToBusyboxTar }]

/-- The handler loop of `convertBusyboxCommands`: skip shadow-guarded
handlers when shadow is installed, and accept the first matching handler
whose conversion actually changes the part. -/
def tryHandlersGo (hasShadow : Bool) (part : ShellPart) : List CommandHandler → Option ShellPart
  | [] => none
  | h :: hs =>
    if h.skipIfShadowPresent && hasShadow then tryHandlersGo hasShadow part hs
    else if part.command == h.command then
      let conv := h.converter part
      if conv.command != part.command || conv.args != part.args then some conv
      else tryHandlersGo hasShadow part hs
    else tryHandlersGo hasShadow part hs

/-- The `convertBusyboxCommands` from dfc.go.  The callers always pass a non-nil
shell, so the nil guard reduces to the empty-parts check. -/
def convertBusyboxCommands (shell : ShellCommand) (stagePackages : List Str) :
    Bool × ShellCommand :=
  if shell.parts.isEmpty then (false, shell)
  else
    let hasShadow := stagePackages.contains (str "shadow")
    let convertedParts := shell.parts.map (fun part =>
      match tryHandlersGo hasShadow part commandHandlers with
      | some conv => (conv, true)
      | none => (part, false))
    if convertedParts.any (fun pc => pc.2) then (true, ⟨convertedParts.map (fun pc => pc.1)⟩)
    else (false, shell)

/-- The `convertImageTag` from dfc.go: strip from the first hyphen, strip a `v`
prefix followed by a digit, keep numeric tags, reformat `MAJOR.MINOR.…` to
`MAJOR.MINOR` when there are more than two numeric parts, and fall back to
`latest` for non-semver tags. -/
def convertImageTag (tag0 : Str) (_isDynamicTag : Bool) : Str :=
  if tag0 = [] then str "latest-dev"
  else
    let tag1 :=
      match indexOfSub tag0 (str "-") with
      | some i => tag0.take i
      | none => tag0
    let tag2 :=
      if tag1.length > 0 && tag1.get? 0 == some 'v' &&
         (tag1.length > 1 &&
           (match tag1.get? 1 with
            | some c => decide ('0' ≤ c) && decide (c ≤ '9')
            | none => false)) then
        tag1.drop 1
      else tag1
    let semverParts := splitOnChar '.' tag2
    let (isSemver, tag3) :=
      match semverParts with
      | [] => (false, tag2)
      | [p0] => ((atoiInt p0).isSome, tag2)
      | p0 :: p1 :: rest =>
        match atoiInt p0, atoiInt p1 with
        | some major, some minor =>
          if 0 ≤ major ∧ 0 ≤ minor then
            (true, if rest ≠ [] then intToStr major ++ '.' :: intToStr minor else tag2)
          else (false, tag2)
        | _, _ => (false, tag2)
    if !isSemver && tag3 != str "latest" then str "latest" else tag3

/-- The `calculateConvertedTag` from dfc.go. -/
def calculateConvertedTag (baseFilename tag : Str) (isDynamicTag needsDevSuffix : Bool) : Str :=
  if baseFilename = str "chainguard-base" then str "latest"
  else
    let convertedTag :=
      if tag = [] then str "latest"
      else if containsSub tag (str "$") then tag
      else convertImageTag tag isDynamicTag
    let convertedTag :=
      if (baseFilename = str "jdk" ∨ baseFilename = str "jre") ∧
         convertedTag ≠ str "latest" ∧ convertedTag ≠ str "latest-dev" then
        str "openjdk-" ++ convertedTag
      else convertedTag
    if needsDevSuffix ∧ convertedTag ≠ str "latest" then
      (if !strHasSuf (str "-dev") convertedTag then convertedTag ++ str "-dev" else convertedTag)
    else if needsDevSuffix ∧ convertedTag = str "latest" then str "latest-dev"
    else convertedTag

/-- The `buildImageReference` from dfc.go. -/
def buildImageReference (baseFilename tag : Str) (opts : Options) : Str :=
  let newBase :=
    if opts.registry ≠ [] then opts.registry ++ '/' :: baseFilename
    else
      let org := if opts.organization = [] then str "ORG" else opts.organization
      str "cgr.dev" ++ '/' :: org ++ '/' :: baseFilename
  if tag ≠ [] then newBase ++ ':' :: tag else newBase

/-- The `generateDockerHubVariants` from dfc.go. -/
def generateDockerHubVariants (base : Str) : List Str :=
  if containsSub base (str "/") && containsSub base (str ".") then [base]
  else
    match splitOnChar '/' base with
    | [imageName] =>
      [base,
       str "docker.io/" ++ imageName,
       str "docker.io/library/" ++ imageName,
       str "registry-1.docker.io/library/" ++ imageName,
       str "index.docker.io/" ++ imageName,
       str "index.docker.io/library/" ++ imageName]
    | [org, imageName] =>
      [base,
       str "docker.io/" ++ org ++ '/' :: imageName,
       str "registry-1.docker.io/" ++ org ++ '/' :: imageName,
       str "index.docker.io/" ++ org ++ '/' :: imageName]
    | _ => [base]

/-- The provider-lookup loop of `convertFromLine`: skip empty variants, skip
variants on which the provider errors (the error is logged and the loop
continues), and stop at the first variant the provider finds; when no
variant hits, `targetImage` keeps its initial value (the base filename). -/
def lookupImageVariants (provider : MappingProvider) (targetImage : Str) :
    List Str → Str
  | [] => targetImage
  | v :: vs =>
    if v = [] then lookupImageVariants provider targetImage vs
    else
      match provider.getImageMapping v with
      | (target, found, err) =>
        if err.isSome then lookupImageVariants provider targetImage vs
        else if found then target
        else lookupImageVariants provider targetImage vs

/-- The `convertFromLine` from dfc.go (with a provider present; no custom
`FromLineConverter`, see `Options`).  Note the tag guard: a dynamic tag
never reaches `calculateConvertedTag` and is replaced by `latest` /
`latest-dev`. -/
def convertFromLine (f : FromDetails) (stage : Int) (stagesWithRunCommands : List Int)
    (opts : Options) : Str :=
  let needsDevSuffix := stagesWithRunCommands.contains stage
  let base := f.base
  let tag := f.tag
  let baseFilename := filepathBase base
  let variants := base :: generateDockerHubVariants base
  let targetImage := lookupImageVariants opts.mappingProvider baseFilename variants
  let convertedTag :=
    if tag ≠ [] ∧ f.tagDynamic = false then
      calculateConvertedTag baseFilename tag f.tagDynamic needsDevSuffix
    else if needsDevSuffix then str "latest-dev"
    else str "latest"
  let imageRef := buildImageReference targetImage convertedTag opts
  let imageRef := if f.digest ≠ [] then imageRef ++ '@' :: f.digest else imageRef
  if f.aliasName ≠ [] then imageRef ++ str " AS " ++ f.aliasName else imageRef

/-- The `parseImageReference` from dfc.go. -/
def parseImageReference (imageRef : Str) : Str × Str :=
  let tParts := splitOnChar ':' imageRef
  if tParts.length > 1 then ((tParts.get? 0).getD [], (tParts.get? 1).getD [])
  else (imageRef, [])

/-- The `determineIfArgNeedsDevSuffix` from dfc.go: scan the lines and return,
for the FIRST FROM whose dynamic base mentions `$name` or `${name}`, whether
that line's stage has a RUN; `false` when no line matches. -/
def determineIfArgNeedsDevSuffix (argName : Str) :
    List DockerfileLine → List Int → Bool
  | [], _ => false
  | l :: ls, swr =>
    match l.fromD with
    | some f =>
      if f.baseDynamic &&
         (containsSub f.base ('$' :: '\x7b' :: (argName ++ ['\x7d'])) ||
          containsSub f.base ('$' :: argName)) then
        swr.contains l.stage
      else determineIfArgNeedsDevSuffix argName ls swr
    | none => determineIfArgNeedsDevSuffix argName ls swr

/-- The `convertArgLine` from dfc.go.  As in the source, the
`determineIfArgNeedsDevSuffix` result is bound but never used: the
conversion below is invoked with stage `-1`. -/
def convertArgLine (arg : ArgDetails) (lines : List DockerfileLine)
    (stagesWithRunCommands : List Int) (opts : Options) : Str × ArgDetails :=
  let newArg : ArgDetails :=
    { name := arg.name, defaultValue := arg.defaultValue, usedAsBase := arg.usedAsBase }
  let newArg :=
    if arg.usedAsBase ∧ arg.defaultValue ≠ [] then
      let _needsDevSuffix := determineIfArgNeedsDevSuffix arg.name lines stagesWithRunCommands
      let bt := parseImageReference arg.defaultValue
      let f : FromDetails := { base := bt.1, tag := bt.2, orig := arg.defaultValue }
      { newArg with defaultValue := convertFromLine f (-1) stagesWithRunCommands opts }
    else newArg
  if newArg.defaultValue ≠ [] then
    (str "ARG " ++ newArg.name ++ '=' :: newArg.defaultValue, newArg)
  else (str "ARG " ++ newArg.name, newArg)

/-- The `shouldConvertFromLine` from dfc.go. -/
def shouldConvertFromLine (f : FromDetails) : Bool :=
  if f.base = str "scratch" ∨ f.parent > 0 ∨ f.baseDynamic = true then false else true

/-- The `detectStagesWithRunCommands` from dfc.go (the map used as a set of
stages is modelled as the list of stages of RUN lines). -/
def detectStagesWithRunCommands (lines : List DockerfileLine) : List Int :=
  lines.filterMap (fun l =>
    if strHasPre (str "RUN ") (toUpperStr (trimSpace l.raw)) then some l.stage else none)

/-- The ARG names referenced by some FROM's dynamic base (`$NAME` or
`${NAME}`), from `identifyArgsUsedAsBaseImages`. -/
def argsUsedAsBaseNames (lines : List DockerfileLine) : List Str :=
  lines.filterMap (fun l =>
    match l.fromD with
    | some f =>
      if f.baseDynamic && strHasPre (str "$") f.base then
        let argName := f.base.drop 1
        let argName :=
          if strHasPre ['\x7b'] argName && strHasSuf ['\x7d'] argName then
            (argName.drop 1).dropLast
          else argName
        some argName
      else none
    | none => none)

/-- Index of the last ARG line bearing `name` (Go's `argNameToLine` map
retains the last writer). -/
def lastArgIdxOf (lines : List DockerfileLine) (name : Str) : Option Nat :=
  (List.range lines.length).foldl (fun acc i =>
    match (lines.get? i).bind (fun l => l.arg) with
    | some a => if a.name = name ∧ a.name ≠ [] then some i else acc
    | none => acc) none

/-- Index-carrying map (helper for `markArgsUsedAsBase`). -/
def mapIdxGo (f : Nat → DockerfileLine → DockerfileLine) :
    Nat → List DockerfileLine → List DockerfileLine
  | _, [] => []
  | i, l :: ls => f i l :: mapIdxGo f (i + 1) ls

/-- The `identifyArgsUsedAsBaseImages` from dfc.go.  The Go function mutates the
input Dockerfile's lines in place, setting `UsedAsBase := true` on the last
ARG line bearing each referenced name; this is its pure result, which
`Convert` then reads (and which is also the post-call state of the input's
lines). -/
def markArgsUsedAsBase (lines : List DockerfileLine) : List DockerfileLine :=
  let used := argsUsedAsBaseNames lines
  mapIdxGo (fun i l =>
    match l.arg with
    | some a =>
      if used.contains a.name ∧ lastArgIdxOf lines a.name = some i then
        { l with arg := some { a with usedAsBase := true } }
      else l
    | none => l) 0 lines

/-- The `processRunLine` from dfc.go.  `before` is the parsed original shell;
it is deep-cloned first (line 920, again dropping the `Value` fields) and
the clone is what `convertPackageManagerCommands` receives; `sp` is the
running `stagePackages` map (stage → packages installed so far), threaded
through the conversion and updated in the package-manager branch. -/
def processRunLine (line newLine : DockerfileLine) (before : ShellCommand)
    (sp : Int → List Str) (provider : MappingProvider) :
    DockerfileLine × (Int → List Str) :=
  let newShell0 := cloneShellCommand before
  match convertPackageManagerCommands (some newShell0) provider with
  | (true, distro, manager, packages, _newPackages, newShellOpt) =>
    let stage := line.stage
    let sp1 := fun st => if st = stage then sp st ++ packages else sp st
    let sh : RunDetailsShell := { before := newShellOpt }
    let rd : RunDetails :=
      { distro := distro, manager := manager, packages := packages, shell := some sh }
    let conv := str "RUN " ++ (newShellOpt.getD ⟨[]⟩).render
    ({ newLine with run := some rd, converted := conv }, sp1)
  | (false, _, _, _, _, newShellOpt) =>
    let newShell := newShellOpt.getD newShell0
    match convertBusyboxCommands newShell (sp line.stage) with
    | (true, newBusyboxShell) =>
      let sh : RunDetailsShell := { before := some newBusyboxShell }
      let rd : RunDetails := { shell := some sh }
      ({ newLine with run := some rd, converted := str "RUN " ++ newBusyboxShell.render }, sp)
    | (false, _) => (newLine, sp)

/-- The per-line body of `Convert`'s main loop: build the fresh line (deep
copies are identities on values), convert FROM lines that should convert,
convert ARG lines used as base with a default, and process RUN lines. -/
def convertLineStep (opts : Options) (swr : List Int) (allLines : List DockerfileLine)
    (sp : Int → List Str) (line : DockerfileLine) :
    DockerfileLine × (Int → List Str) :=
  let newLine : DockerfileLine := { raw := line.raw, extra := line.extra, stage := line.stage }
  let newLine :=
    match line.fromD with
    | some f =>
      let n1 := { newLine with fromD := some f }
      if shouldConvertFromLine f then
        { n1 with converted := convertFromLine f line.stage swr opts }
      else n1
    | none => newLine
  let newLine :=
    match line.arg with
    | some a =>
      if a.usedAsBase ∧ a.defaultValue ≠ [] then
        let ca := convertArgLine a allLines swr opts
        { newLine with converted := ca.1, arg := some ca.2 }
      else newLine
    | none => newLine
  match line.run with
  | some r =>
    match r.shell with
    | some sh =>
      match sh.before with
      | some before => processRunLine line newLine before sp opts.mappingProvider
      | none => (newLine, sp)
    | none => (newLine, sp)
  | none => (newLine, sp)

/-- Main loop of `Convert` over the lines, threading `stagePackages`. -/
def convertLoop (opts : Options) (swr : List Int) (allLines : List DockerfileLine) :
    (Int → List Str) → List DockerfileLine → List DockerfileLine
  | _, [] => []
  | sp, l :: ls =>
    let r := convertLineStep opts swr allLines sp l
    r.1 :: convertLoop opts swr allLines r.2 ls

/-- The USER-root detection of `addUserRootDirectives`: a line whose trimmed
upper-cased text starts with `USER ` and whose lower-cased text contains
`root`. -/
def isUserRootStr (s : Str) : Bool :=
  strHasPre (str "USER ") (toUpperStr (trimSpace s)) && containsSub (toLowerStr s) (str "root")

/-- The second loop of `addUserRootDirectives`, carrying the
`stagesWithUserRoot` set, which the loop itself extends. -/
def addUserRootGo (convRuns : List Int) : List Int → List DockerfileLine → List DockerfileLine
  | _, [] => []
  | userRoot, l :: ls =>
    if l.fromD.isSome ∧ convRuns.contains l.stage ∧ l.converted ≠ [] ∧
       ¬ userRoot.contains l.stage then
      { l with converted := l.converted ++ nlChar :: str "USER root" } ::
        addUserRootGo convRuns (l.stage :: userRoot) ls
    else l :: addUserRootGo convRuns userRoot ls

/-- The `addUserRootDirectives` from dfc.go. -/
def addUserRootDirectives (lines : List DockerfileLine) : List DockerfileLine :=
  let convRuns : List Int := lines.filterMap (fun l =>
    if l.run.isSome ∧ l.converted ≠ [] then some l.stage else none)
  let userRoot0 : List Int := lines.filterMap (fun l =>
    if isUserRootStr l.raw ∨ isUserRootStr l.converted then some l.stage else none)
  if convRuns ≠ [] then addUserRootGo convRuns userRoot0 lines else lines

/-- The `Dockerfile.Convert` from dfc.go, in the branch where
`opts.MappingProvider` is supplied.  The first component is the post-call
state of the input's lines (`identifyArgsUsedAsBaseImages` mutates them in
place); the second is the converted Dockerfile. -/
def convertCore (d : Dockerfile) (opts : Options) : Dockerfile × Dockerfile :=
  let swr := detectStagesWithRunCommands d.lines
  let mutated := markArgsUsedAsBase d.lines
  let convertedLines := convertLoop opts swr mutated (fun _ => []) mutated
  (⟨mutated⟩, ⟨addUserRootDirectives convertedLines⟩)

/-- The Dockerfile returned by `Convert`. -/
def Dockerfile.convert (d : Dockerfile) (opts : Options) : Dockerfile :=
  (convertCore d opts).2

/-- The `(*Dockerfile, error)` return of `Convert`: with a provider
supplied, no path of `Convert` constructs an error. -/
def Dockerfile.convertReturn (d : Dockerfile) (opts : Options) : Except Str Dockerfile :=
  Except.ok (convertCore d opts).2

/-- The state of the input Dockerfile after `Convert` returns (the lines are
mutated in place by `identifyArgsUsedAsBaseImages`). -/
def Dockerfile.inputAfterConvert (d : Dockerfile) (opts : Options) : Dockerfile :=
  (convertCore d opts).1

/-- Concatenation of the non-last per-line outputs of `Dockerfile.String`. -/
def renderMidAll (ls : List DockerfileLine) : Str :=
  (ls.map lineRenderMid).flatten

/-- Concatenation of lines, each with a trailing newline (what the parser's
line loop consumes). -/
def linesJoin (ls : List Str) : Str :=
  (ls.map (fun l => l ++ [nlChar])).flatten

/-- A source line the parser treats as blank or comment (skipped entirely
when inside a multi-line instruction). -/
def lineSkippable (l : Str) : Bool :=
  (trimSpace l).isEmpty || strHasPre (str "#") (trimSpace l)

/-- No blank or comment line occurs while the parser is inside a multi-line
instruction (such lines are dropped from `Raw`, breaking the round trip). -/
def wfLines : Bool → List Str → Bool
  | _, [] => true
  | b, l :: ls =>
    if lineSkippable l then !b && wfLines b ls
    else wfLines (strHasSuf (str "\\") (trimSpace l)) ls

/-- Whether the parser's multi-line flag is set after consuming all lines
(the input ends inside a backslash continuation). -/
def finalInMulti : Bool → List Str → Bool
  | b, [] => b
  | b, l :: ls =>
    if lineSkippable l then finalInMulti b ls
    else finalInMulti (strHasSuf (str "\\") (trimSpace l)) ls

/-- The state invariant of the parser loop: an empty instruction buffer
outside multi-line mode, a nonempty one inside, newline-terminated `extra`,
and emitted lines with nonempty `Raw` and no `Converted`. -/
def parseInv (st : ParseState) : Prop :=
  (st.inMulti = false → st.cur = []) ∧
  (st.inMulti = true → st.cur ≠ []) ∧
  (st.extra = [] ∨ ∃ e, st.extra = e ++ [nlChar]) ∧
  (∀ l ∈ st.lines, l.raw ≠ [] ∧ l.converted = [])

/-- The raw text and stage of a line (all that
`detectStagesWithRunCommands` reads). -/
def rawStage (l : DockerfileLine) : Str × Int := (l.raw, l.stage)

/-- A line with its `ArgDetails.UsedAsBase` flag cleared (for stating that
conversion mutates nothing else in its input). -/
def lineEraseUsedAsBase (l : DockerfileLine) : DockerfileLine :=
  { l with arg := l.arg.map (fun a => { a with usedAsBase := false }) }

/-- A mapping provider that never finds a mapping and never errors. -/
def notFoundProvider : MappingProvider :=
  { getImageMapping := fun _ => ([], false, none),
    getPackageMappings := fun _ _ => ([], false, none) }

/-- A mapping provider whose every call fails with a backend error. -/
def erroringProvider : MappingProvider :=
  { getImageMapping := fun _ => ([], false, some (str "mapping backend failure")),
    getPackageMappings := fun _ _ => ([], false, some (str "mapping backend failure")) }

/-- Conversion options with default organization/registry and a provider
with no mappings. -/
def defaultOptions : Options := { mappingProvider := notFoundProvider }

/-- Conversion options whose provider always errors. -/
def erroringOptions : Options := { mappingProvider := erroringProvider }

/-- A shell part carrying only a `Value` token, the shape
`convertPackageManagerCommands` itself constructs for its replacement
command. -/
def valuePart (v : Str) : ShellPart := { value := v }

/-- The shell of `RUN apt-get install -y vim nginx curl` with the `Value`
token of each word filled in — the most favourable possible input for the
detection loop of `convertPackageManagerCommands`, which reads only
`Value` fields. -/
def c3FailingShell : ShellCommand :=
  ⟨[valuePart (str "apt-get"), valuePart (str "install"), valuePart (str "-y"),
    valuePart (str "vim"), valuePart (str "nginx"), valuePart (str "curl")]⟩

/-- The shell of `RUN echo hello; apt-get install nginx && echo goodbye`
with the `Value` token of each word filled in and the original delimiters
recorded on the parts that carry them. -/
def c4FailingShell : ShellCommand :=
  ⟨[valuePart (str "echo"),
    { value := str "hello", delimiter := str ";" },
    valuePart (str "apt-get"), valuePart (str "install"),
    { value := str "nginx", delimiter := str "&&" },
    valuePart (str "echo"), valuePart (str "goodbye")]⟩

/-- The source text of the C3 failing input. -/
def c3Run : Str := str "RUN apt-get install -y vim nginx curl"

/-- The source text of the C4 failing input. -/
def c4Run : Str := str "RUN echo hello; apt-get install nginx && echo goodbye"

/-- The three-line document of the C8 analysis: an ARG used as base, a FROM
referencing it, and a RUN in that FROM's stage. -/
def c8Doc : Dockerfile :=
  parseDockerfile (str "ARG BASE=python:3.9\nFROM $BASE\nRUN echo hi")

/-- The run- and arg-free specialization of a `Convert` main-loop iteration
(used to state idempotence): on a line with no `Run` and no `Arg` payload,
only the FROM conversion can fire and `stagePackages` is untouched. -/
def convertLinePure (opts : Options) (swr : List Int) (l : DockerfileLine) : DockerfileLine :=
  { raw := l.raw, extra := l.extra, stage := l.stage, fromD := l.fromD,
    converted :=
      match l.fromD with
      | some f =>
        if shouldConvertFromLine f then convertFromLine f l.stage swr opts else []
      | none => [] }

/-- The text accounted for by a parser state: rendered emitted lines, the
pending `extra` buffer, and the pending instruction buffer. -/
def renderState (st : ParseState) : Str :=
  renderMidAll st.lines ++ st.extra ++ st.cur

/-! ### Helper lemmas -/

theorem renderMidAll_concat (xs : List DockerfileLine) (t : DockerfileLine) :
    renderMidAll (xs ++ [t]) = renderMidAll xs ++ lineRenderMid t := by
  simp [renderMidAll]

theorem renderLines_concat (xs : List DockerfileLine) (t : DockerfileLine) :
    renderLines (xs ++ [t]) = renderMidAll xs ++ lineRenderLast t := by
  induction xs with
  | nil => simp [renderLines, renderMidAll]
  | cons x xs ih =>
    cases xs with
    | nil => simp [renderLines, renderMidAll]
    | cons y ys =>
      simp only [List.cons_append, renderLines, List.append_eq] at ih ⊢
      rw [ih]
      simp [renderMidAll, List.append_assoc]

/-! ### Claim C3 -/

set_option maxRecDepth 8192 in
/-- Claim C3 (code evaluated at the failing input): the claimed
`apk add -U` rewrite never happens.  `cloneShellPart` (dfc.go:1066) does not
copy `Value`, and `convertPackageManagerCommands` runs its detection loop on
the clone taken at dfc.go:980, so every `part.Value` it reads is empty: even
on a shell whose parts carry the `Value` tokens of
`apt-get install -y vim nginx curl` it reports `found = false` and returns
the cloned parts with every `Value` wiped.  End to end, converting
`RUN apt-get install -y vim nginx curl` leaves the line's `Converted` empty
and the serialized document is the unchanged input, which contains no `apk`
at all — not the single sorted deduplicated `apk add -U` part the claim
requires. -/
theorem c3_apk_unification_failing :
    (convertPackageManagerCommands (some c3FailingShell) notFoundProvider).1 = false ∧
    (((convertPackageManagerCommands (some c3FailingShell)
        notFoundProvider).2.2.2.2.2.getD ⟨[]⟩).parts.map (fun p => p.value)) =
      [[], [], [], [], [], []] ∧
    ((parseDockerfile c3Run).convert defaultOptions).lines.map (fun l => l.converted) =
      [[]] ∧
    ((parseDockerfile c3Run).convert defaultOptions).toStr = c3Run ∧
    containsSub ((parseDockerfile c3Run).convert defaultOptions).toStr (str "apk") =
      false := by
  refine ⟨by decide, by decide, by decide, by decide, by decide⟩

/-! ### Claim C4 -/

set_option maxRecDepth 8192 in
/-- Claim C4 (code evaluated at the failing input): the replacement the
claim frames never occurs.  On the mixed command
`echo hello; apt-get install nginx && echo goodbye` the clone taken at
dfc.go:980 wipes every `Value`, so no package-manager part is ever detected
(`found = false`) even when the input parts carry `Value` tokens; the clone
keeps the delimiters `;` and `&&`, but the package-manager segment is never
replaced by the unified `apk` command.  End to end, the converted document
is the unchanged input, still containing `apt-get install` and no
`apk add`, contrary to the claim's only-the-PM-parts-are-replaced
requirement. -/
theorem c4_outer_structure_failing :
    (convertPackageManagerCommands (some c4FailingShell) notFoundProvider).1 = false ∧
    (((convertPackageManagerCommands (some c4FailingShell)
        notFoundProvider).2.2.2.2.2.getD ⟨[]⟩).parts.map
        (fun p => (p.value, p.delimiter))) =
      [([], []), ([], str ";"), ([], []), ([], []),
       ([], str "&&"), ([], []), ([], [])] ∧
    ((parseDockerfile c4Run).convert defaultOptions).toStr = c4Run ∧
    containsSub ((parseDockerfile c4Run).convert defaultOptions).toStr
      (str "apt-get install") = true ∧
    containsSub ((parseDockerfile c4Run).convert defaultOptions).toStr
      (str "apk add") = false := by
  refine ⟨by decide, by decide, by decide, by decide, by decide⟩

/-! ### Claim C7 -/

/-- Claim C7 (counterexample): converting `FROM python:$VER` (a dynamic
tag, stage without RUN) yields `cgr.dev/ORG/python:latest`; the original
tag `$VER` is not kept verbatim — no `$` survives in the converted
reference. -/
theorem c7_dynamic_tag_counterexample :
    ((parseDockerfile (str "FROM python:$VER")).convert defaultOptions).lines.map
        (fun l => l.converted) = [str "cgr.dev/ORG/python:latest"] ∧
    containsSub (str "cgr.dev/ORG/python:latest") (str "$") = false := by
  refine ⟨by decide, by decide⟩

/-- Claim C7 (amended): for a FROM whose `TagDynamic` flag is set (the
parser sets it exactly when the tag contains `$`), `convertFromLine` never
consults the original tag at all: the converted reference is the same for
any two original tags.  The keep-verbatim rule of `calculateConvertedTag`
is unreachable on this path because of the `tag != "" && !from.TagDynamic`
guard. -/
theorem c7_dynamic_tag_amended (base digest aliasN orig t1 t2 : Str) (parent : Int)
    (bd : Bool) (stage : Int) (swr : List Int) (opts : Options) :
    convertFromLine
      { base := base, tag := t1, digest := digest, aliasName := aliasN,
        parent := parent, baseDynamic := bd, tagDynamic := true, orig := orig }
      stage swr opts =
    convertFromLine
      { base := base, tag := t2, digest := digest, aliasName := aliasN,
        parent := parent, baseDynamic := bd, tagDynamic := true, orig := orig }
      stage swr opts := by
  simp [convertFromLine]

/-! ### Claim C8 -/

/-- Claim C8 (counterexample): in
`ARG BASE=python:3.9` / `FROM $BASE` / `RUN echo hi`, the only stage whose
FROM references `$BASE` contains a RUN, so the claimed OR (and even the
first-match value computed by `determineIfArgNeedsDevSuffix`) is `true`,
and a true `needsDevSuffix` would turn the tag into `3.9-dev`; yet the
converted ARG line keeps `3.9` — the conversion runs with stage `-1`, i.e.
`needsDevSuffix = false`. -/
theorem c8_arg_dev_suffix_counterexample :
    determineIfArgNeedsDevSuffix (str "BASE") c8Doc.lines
      (detectStagesWithRunCommands c8Doc.lines) = true ∧
    calculateConvertedTag (str "python") (str "3.9") false true = str "3.9-dev" ∧
    (c8Doc.convert defaultOptions).lines.map (fun l => l.converted) =
      [str "ARG BASE=cgr.dev/ORG/python:3.9", [], []] := by
  refine ⟨by decide, by decide, by decide⟩

/-- Claim C8 (amended): the `needsDevSuffix` value actually used while
converting an ARG default is the membership of stage `-1` in the
stages-with-RUN set, hence constantly `false` for any set of parser-assigned
stages: `convertArgLine` does not depend on which stages contain RUNs at
all (the `determineIfArgNeedsDevSuffix` result is computed and
discarded). -/
theorem c8_arg_dev_suffix_amended (arg : ArgDetails) (lines : List DockerfileLine)
    (swr : List Int) (opts : Options) (h : swr.contains (-1) = false) :
    convertArgLine arg lines swr opts = convertArgLine arg lines [] opts := by
  have hcf : ∀ f : FromDetails, convertFromLine f (-1) swr opts =
      convertFromLine f (-1) [] opts := by
    intro f
    have h' : ¬ ((-1 : Int) ∈ swr) := by simpa using h
    simp [convertFromLine, h']
  simp [convertArgLine, hcf]

/-- Claim C8 (amended, witness). -/
theorem c8_arg_dev_suffix_amended_witness :
    ([(1 : Int), 2].contains (-1) = false) ∧
    convertArgLine ⟨str "BASE", str "python:3.9", true⟩ [] [(1 : Int), 2] defaultOptions =
      convertArgLine ⟨str "BASE", str "python:3.9", true⟩ [] [] defaultOptions :=
  ⟨by decide,
   c8_arg_dev_suffix_amended ⟨str "BASE", str "python:3.9", true⟩
     [] [(1 : Int), 2] defaultOptions (by decide)⟩

/-! ### Claim C2 -/

/-- Claim C2 (counterexample): with the identity (no-mapping) provider,
converting `ARG BASE=jdk:17` / `FROM $BASE` once yields the ARG default
`cgr.dev/ORG/jdk:openjdk-17`; converting the result again re-truncates the
already-converted tag to `latest`, so `Convert ∘ Convert ≠ Convert`. -/
theorem c2_idempotence_counterexample :
    ((parseDockerfile (str "ARG BASE=jdk:17\nFROM $BASE")).convert
        defaultOptions).convert defaultOptions ≠
      (parseDockerfile (str "ARG BASE=jdk:17\nFROM $BASE")).convert defaultOptions ∧
    ((parseDockerfile (str "ARG BASE=jdk:17\nFROM $BASE")).convert
        defaultOptions).lines.map (fun l => l.converted) =
      [str "ARG BASE=cgr.dev/ORG/jdk:openjdk-17", []] ∧
    (((parseDockerfile (str "ARG BASE=jdk:17\nFROM $BASE")).convert
        defaultOptions).convert defaultOptions).lines.map (fun l => l.converted) =
      [str "ARG BASE=cgr.dev/ORG/jdk:latest", []] := by
  refine ⟨by decide, by decide, by decide⟩

/-! ### Claim C6 -/

/-- Claim C6 (counterexample): `Convert` mutates its input: on
`ARG BASE=python:3.9` / `FROM $BASE`, the input's ARG line has
`UsedAsBase = false` before the call and `UsedAsBase = true` after it
(`identifyArgsUsedAsBaseImages` writes through to the original lines). -/
theorem c6_no_mutation_counterexample :
    (parseDockerfile (str "ARG BASE=python:3.9\nFROM $BASE")).inputAfterConvert
        defaultOptions ≠
      parseDockerfile (str "ARG BASE=python:3.9\nFROM $BASE") ∧
    (parseDockerfile (str "ARG BASE=python:3.9\nFROM $BASE")).lines.map
        (fun l => l.arg.map (fun a => a.usedAsBase)) = [some false, none] ∧
    ((parseDockerfile (str "ARG BASE=python:3.9\nFROM $BASE")).inputAfterConvert
        defaultOptions).lines.map (fun l => l.arg.map (fun a => a.usedAsBase)) =
      [some true, none] := by
  refine ⟨by decide, by decide, by decide⟩

/-! ### Claim C5 -/

/-- Claim C5 (counterexample): with a provider whose every lookup returns an
error, `Convert` does not abort: it returns `ok` with a fully converted
Dockerfile (the provider error is logged and skipped, and the default
conversion is used). -/
theorem c5_provider_error_counterexample :
    ((erroringProvider.getImageMapping (str "python")).2.2).isSome = true ∧
    (parseDockerfile (str "FROM python:3.9")).convertReturn erroringOptions =
      Except.ok ⟨[{ raw := str "FROM python:3.9", converted := str "cgr.dev/ORG/python:3.9",
                    stage := 1,
                    fromD := some { base := str "python", tag := str "3.9",
                                    orig := str "python:3.9" } }]⟩ := by
  refine ⟨rfl, by rfl⟩

/-! ### Claim C1 -/

/-- Claim C1 (counterexample): round-tripping is not `S` modulo one
suppressed trailing newline.  A comment line inside a backslash
continuation is dropped entirely (`RUN a \` / `# c` / `b` reserializes as
`RUN a \` / `b`), an internal difference no trailing-newline modulo can
absorb; and an input ending in a continuation gains a newline. -/
theorem c1_roundtrip_counterexample :
    (parseDockerfile (str "RUN a \\\n# c\nb")).toStr = str "RUN a \\\nb" ∧
    (parseDockerfile (str "RUN a \\\n# c\nb")).toStr ≠ str "RUN a \\\n# c\nb" ∧
    (parseDockerfile (str "RUN a \\\n# c\nb")).toStr ++ [nlChar] ≠ str "RUN a \\\n# c\nb" ∧
    (parseDockerfile (str "RUN a \\\n# c\nb")).toStr ≠ str "RUN a \\\n# c\nb" ++ [nlChar] ∧
    (parseDockerfile (str "RUN a \\")).toStr = str "RUN a \\" ++ [nlChar] := by
  refine ⟨by decide, by decide, by decide, by decide, by decide⟩

/-! ### Claim C10 -/

/-- Claim C10: if the last line of a Dockerfile has a nonempty `Converted`,
the serialized output ends in a newline; if the last line is emitted from
`Raw` (empty `Converted`), nothing is appended after `Extra ++ Raw` — the
output is exactly the non-last renderings followed by `Extra ++ Raw`. -/
theorem c10_trailing_newline (d : Dockerfile) (init : List DockerfileLine)
    (lastL : DockerfileLine) (h : d.lines = init ++ [lastL]) :
    (lastL.converted ≠ [] → ∃ t, d.toStr = t ++ [nlChar]) ∧
    (lastL.converted = [] → d.toStr = renderMidAll init ++ lastL.extra ++ lastL.raw) := by
  constructor
  · intro hc
    refine ⟨renderMidAll init ++ lastL.extra ++ lastL.converted, ?_⟩
    rw [Dockerfile.toStr, h, renderLines_concat, lineRenderLast, if_pos hc]
    simp [List.append_assoc]
  · intro hc
    rw [Dockerfile.toStr, h, renderLines_concat, lineRenderLast, if_neg (by simp [hc])]
    by_cases hr : lastL.raw = []
    · simp [hr, hc]
    · rw [if_pos hr]
      simp

/-! ### Claim C9 -/

theorem mapIdxGo_get? (f : Nat → DockerfileLine → DockerfileLine) :
    ∀ (ls : List DockerfileLine) (n i : Nat),
      (mapIdxGo f n ls).get? i = (ls.get? i).map (f (n + i)) := by
  intro ls
  induction ls with
  | nil => intro n i; simp [mapIdxGo]
  | cons l ls ih =>
    intro n i
    cases i with
    | zero => simp [mapIdxGo]
    | succ j =>
      have h := ih (n + 1) j
      simp only [mapIdxGo, List.get?_cons_succ, h]
      rw [Nat.add_assoc, Nat.add_comm 1 j]

theorem markArgs_get?_of_arg_none (lines : List DockerfileLine) (i : Nat)
    (l : DockerfileLine) (hl : lines.get? i = some l) (ha : l.arg = none) :
    (markArgsUsedAsBase lines).get? i = some l := by
  unfold markArgsUsedAsBase
  rw [mapIdxGo_get?, hl]
  simp [ha]

theorem convertLoop_get? (opts : Options) (swr : List Int) (all : List DockerfileLine) :
    ∀ (ls : List DockerfileLine) (sp : Int → List Str) (i : Nat),
      ∃ sp', (convertLoop opts swr all sp ls).get? i =
        (ls.get? i).map (fun l => (convertLineStep opts swr all sp' l).1) := by
  intro ls
  induction ls with
  | nil => intro sp i; exact ⟨sp, by simp [convertLoop]⟩
  | cons l ls ih =>
    intro sp i
    cases i with
    | zero => exact ⟨sp, by simp [convertLoop]⟩
    | succ j =>
      obtain ⟨sp', h⟩ := ih (convertLineStep opts swr all sp l).2 j
      exact ⟨sp', by simpa [convertLoop] using h⟩

theorem convertLineStep_from_noconvert (opts : Options) (swr : List Int)
    (all : List DockerfileLine) (sp : Int → List Str) (l : DockerfileLine)
    (f : FromDetails) (hf : l.fromD = some f) (hs : shouldConvertFromLine f = false)
    (ha : l.arg = none) (hr : l.run = none) :
    (convertLineStep opts swr all sp l).1 =
      { raw := l.raw, extra := l.extra, stage := l.stage, fromD := some f } := by
  simp [convertLineStep, hf, hs, ha, hr]

theorem addUserRootGo_get?_of_conv_nil (cr : List Int) :
    ∀ (ls : List DockerfileLine) (ur : List Int) (i : Nat) (l : DockerfileLine),
      ls.get? i = some l → l.converted = [] →
      (addUserRootGo cr ur ls).get? i = some l := by
  intro ls
  induction ls with
  | nil => intro ur i l h _; simp at h
  | cons x xs ih =>
    intro ur i l hl hc
    cases i with
    | zero =>
      simp only [List.get?_cons_zero, Option.some.injEq] at hl
      subst hl
      unfold addUserRootGo
      rw [if_neg (by simp [hc])]
      rfl
    | succ j =>
      unfold addUserRootGo
      split
      · exact ih _ j l (by simpa using hl) hc
      · exact ih _ j l (by simpa using hl) hc

theorem addUserRoot_get?_of_conv_nil (ls : List DockerfileLine) (i : Nat)
    (l : DockerfileLine) (hl : ls.get? i = some l) (hc : l.converted = []) :
    (addUserRootDirectives ls).get? i = some l := by
  dsimp only [addUserRootDirectives]
  split
  · exact addUserRootGo_get?_of_conv_nil _ ls _ i l hl hc
  · exact hl

/-- Claim C9: a FROM line whose base is `scratch`, or whose `Parent` is
positive, or whose base is dynamic (that is, `shouldConvertFromLine` is
false) is never rewritten by `Convert`: the output line keeps `Raw`,
`Extra`, `Stage` and the FROM details, and its `Converted` field is empty,
so it serializes from `Raw`.  (`arg`/`run` absent as the parser guarantees
for FROM lines.) -/
theorem c9_from_not_rewritten (d : Dockerfile) (opts : Options) (i : Nat)
    (l : DockerfileLine) (f : FromDetails)
    (hl : d.lines.get? i = some l) (hf : l.fromD = some f)
    (hs : shouldConvertFromLine f = false) (ha : l.arg = none) (hr : l.run = none) :
    (d.convert opts).lines.get? i =
      some { raw := l.raw, extra := l.extra, stage := l.stage, fromD := some f } := by
  show (addUserRootDirectives (convertLoop opts (detectStagesWithRunCommands d.lines)
      (markArgsUsedAsBase d.lines) (fun _ => []) (markArgsUsedAsBase d.lines))).get? i = _
  have hm := markArgs_get?_of_arg_none d.lines i l hl ha
  obtain ⟨sp', hcl⟩ := convertLoop_get? opts (detectStagesWithRunCommands d.lines)
    (markArgsUsedAsBase d.lines) (markArgsUsedAsBase d.lines) (fun _ => []) i
  rw [hm, Option.map_some',
    convertLineStep_from_noconvert opts _ _ sp' l f hf hs ha hr] at hcl
  exact addUserRoot_get?_of_conv_nil _ i _ hcl rfl

/-- Claim C9 (witness): `FROM scratch` stays unconverted. -/
theorem c9_from_not_rewritten_witness :
    ((parseDockerfile (str "FROM scratch")).convert defaultOptions).lines.get? 0 =
      some { raw := str "FROM scratch", extra := [], stage := 1,
             fromD := some { base := str "scratch", orig := str "scratch" } } :=
  c9_from_not_rewritten (parseDockerfile (str "FROM scratch")) defaultOptions 0
    { raw := str "FROM scratch", stage := 1,
      fromD := some { base := str "scratch", orig := str "scratch" } }
    { base := str "scratch", orig := str "scratch" }
    (by decide) rfl (by decide) rfl rfl

/-- Claim C10 (witness): a two-line Dockerfile whose last line carries a
converted text serializes with a final newline. -/
theorem c10_trailing_newline_witness :
    ((({ raw := str "RUN b", converted := str "RUN c" } : DockerfileLine).converted ≠ [] →
      ∃ t, (⟨[{ raw := str "FROM a" }, { raw := str "RUN b", converted := str "RUN c" }]⟩ :
        Dockerfile).toStr = t ++ [nlChar]) ∧
     (({ raw := str "RUN b", converted := str "RUN c" } : DockerfileLine).converted = [] →
      (⟨[{ raw := str "FROM a" }, { raw := str "RUN b", converted := str "RUN c" }]⟩ :
        Dockerfile).toStr =
        renderMidAll [({ raw := str "FROM a" } : DockerfileLine)] ++ [] ++ str "RUN b")) :=
  c10_trailing_newline
    ⟨[{ raw := str "FROM a" }, { raw := str "RUN b", converted := str "RUN c" }]⟩
    [{ raw := str "FROM a" }] { raw := str "RUN b", converted := str "RUN c" } rfl

/-! ### Claim C6 -/

/-- Claim C6 (amended): `Convert` leaves its input unchanged except that it
may set (never clear) the `UsedAsBase` flag of an ARG line referenced by a
dynamic FROM base; every other field of every input line is untouched, and
the line count is preserved. -/
theorem c6_no_mutation_amended (d : Dockerfile) (opts : Options) (i : Nat)
    (l l' : DockerfileLine) (hl : d.lines.get? i = some l)
    (hl' : (d.inputAfterConvert opts).lines.get? i = some l') :
    lineEraseUsedAsBase l' = lineEraseUsedAsBase l ∧
    (l.arg.map (fun a => a.usedAsBase) = some true →
      l'.arg.map (fun a => a.usedAsBase) = some true) := by
  have hmark : (d.inputAfterConvert opts).lines.get? i =
      (d.lines.get? i).map (fun x =>
        (fun i x => match x.arg with
          | some a =>
            if (argsUsedAsBaseNames d.lines).contains a.name ∧
               lastArgIdxOf d.lines a.name = some i then
              { x with arg := some { a with usedAsBase := true } }
            else x
          | none => x) (0 + i) x) := by
    show (markArgsUsedAsBase d.lines).get? i = _
    unfold markArgsUsedAsBase
    rw [mapIdxGo_get?]
  rw [hmark, hl] at hl'
  simp only [Option.map_some', Option.some.injEq] at hl'
  cases ha : l.arg with
  | none =>
    rw [ha] at hl'
    simp at hl'
    subst hl'
    exact ⟨rfl, by simp [ha]⟩
  | some a =>
    rw [ha] at hl'
    have hl2 : (if (argsUsedAsBaseNames d.lines).contains a.name = true ∧
        lastArgIdxOf d.lines a.name = some (0 + i) then
          ({ l with arg := some { a with usedAsBase := true } } : DockerfileLine)
        else l) = l' := hl'
    split at hl2
    · subst hl2
      constructor
      · simp [lineEraseUsedAsBase, ha]
      · intro _
        simp
    · subst hl2
      refine ⟨rfl, fun h => ?_⟩
      rw [ha]
      exact h

/-- Claim C6 (amended, witness). -/
theorem c6_no_mutation_amended_witness :
    lineEraseUsedAsBase
        { raw := str "ARG BASE=python:3.9", stage := 0,
          arg := some { name := str "BASE", defaultValue := str "python:3.9",
                        usedAsBase := true } } =
      lineEraseUsedAsBase
        { raw := str "ARG BASE=python:3.9", stage := 0,
          arg := some { name := str "BASE", defaultValue := str "python:3.9" } } ∧
    ((({ raw := str "ARG BASE=python:3.9", stage := 0,
         arg := some { name := str "BASE", defaultValue := str "python:3.9" } } :
         DockerfileLine).arg.map (fun a => a.usedAsBase) = some true) →
      (({ raw := str "ARG BASE=python:3.9", stage := 0,
          arg := some { name := str "BASE", defaultValue := str "python:3.9",
                        usedAsBase := true } } :
          DockerfileLine).arg.map (fun a => a.usedAsBase) = some true)) :=
  c6_no_mutation_amended (parseDockerfile (str "ARG BASE=python:3.9\nFROM $BASE"))
    defaultOptions 0
    { raw := str "ARG BASE=python:3.9", stage := 0,
      arg := some { name := str "BASE", defaultValue := str "python:3.9" } }
    { raw := str "ARG BASE=python:3.9", stage := 0,
      arg := some { name := str "BASE", defaultValue := str "python:3.9",
                    usedAsBase := true } }
    rfl rfl

theorem lookupImageVariants_err (p : MappingProvider)
    (herr : ∀ s_, ((p.getImageMapping s_).2.2).isSome = true) :
    ∀ (vs : List Str) (t : Str), lookupImageVariants p t vs = t := by
  intro vs
  induction vs with
  | nil => intro t; rfl
  | cons v vs ih =>
    intro t
    unfold lookupImageVariants
    by_cases hv : v = []
    · rw [if_pos hv]
      exact ih t
    · rw [if_neg hv]
      rcases hm : p.getImageMapping v with ⟨target, found, err⟩
      have he := herr v
      rw [hm] at he
      simp only [he, if_true]
      exact ih t

theorem lookupImageVariants_notFound :
    ∀ (vs : List Str) (t : Str), lookupImageVariants notFoundProvider t vs = t := by
  intro vs
  induction vs with
  | nil => intro t; rfl
  | cons v vs ih =>
    intro t
    unfold lookupImageVariants
    by_cases hv : v = []
    · rw [if_pos hv]
      exact ih t
    · rw [if_neg hv]
      show lookupImageVariants notFoundProvider t vs = t
      exact ih t

/-- Claim C5 (amended): a provider error during the image lookup of
`convertFromLine` is skipped, not propagated: with a provider that errors
on every lookup the conversion result is the same as with a provider that
has no mappings at all (the default conversion is left in place), and
`Convert` returns it wrapped in a success. -/
theorem c5_provider_error_amended (f : FromDetails) (stage : Int) (swr : List Int)
    (p : MappingProvider) (org reg : Str)
    (herr : ∀ s_, ((p.getImageMapping s_).2.2).isSome = true) :
    convertFromLine f stage swr
        { organization := org, registry := reg, mappingProvider := p } =
      convertFromLine f stage swr
        { organization := org, registry := reg, mappingProvider := notFoundProvider } := by
  simp only [convertFromLine, buildImageReference, lookupImageVariants_err p herr,
    lookupImageVariants_notFound]

/-- Claim C5 (amended, witness). -/
theorem c5_provider_error_amended_witness :
    (∀ s_, ((erroringProvider.getImageMapping s_).2.2).isSome = true) ∧
    convertFromLine { base := str "python", tag := str "3.9", orig := str "python:3.9" }
        1 [] { organization := [], registry := [], mappingProvider := erroringProvider } =
      convertFromLine { base := str "python", tag := str "3.9", orig := str "python:3.9" }
        1 [] { organization := [], registry := [], mappingProvider := notFoundProvider } :=
  ⟨fun _ => rfl,
   c5_provider_error_amended
     { base := str "python", tag := str "3.9", orig := str "python:3.9" }
     1 [] erroringProvider [] [] (fun _ => rfl)⟩

/-! ### Claim C2 (amended) -/

theorem mapIdxGo_eq_self (f : Nat → DockerfileLine → DockerfileLine) :
    ∀ (ls : List DockerfileLine) (n : Nat), (∀ l ∈ ls, ∀ i, f i l = l) →
      mapIdxGo f n ls = ls := by
  intro ls
  induction ls with
  | nil => intro n _; rfl
  | cons l ls ih =>
    intro n h
    unfold mapIdxGo
    rw [h l (List.mem_cons_self _ _) n, ih (n + 1) (fun x hx => h x (List.mem_cons_of_mem _ hx))]

theorem markArgs_id_of_no_arg (lines : List DockerfileLine)
    (h : ∀ l ∈ lines, l.arg = none) : markArgsUsedAsBase lines = lines := by
  unfold markArgsUsedAsBase
  apply mapIdxGo_eq_self
  intro l hl i
  simp [h l hl]

theorem convertLineStep_no_run_arg (opts : Options) (swr : List Int)
    (all : List DockerfileLine) (sp : Int → List Str) (l : DockerfileLine)
    (hr : l.run = none) (ha : l.arg = none) :
    convertLineStep opts swr all sp l = (convertLinePure opts swr l, sp) := by
  cases hf : l.fromD with
  | none => simp [convertLineStep, convertLinePure, hr, ha, hf]
  | some f =>
    by_cases hs : shouldConvertFromLine f <;>
      simp [convertLineStep, convertLinePure, hr, ha, hf, hs]

theorem convertLoop_no_run_arg (opts : Options) (swr : List Int) (all : List DockerfileLine) :
    ∀ (ls : List DockerfileLine) (sp : Int → List Str),
      (∀ l ∈ ls, l.run = none ∧ l.arg = none) →
      convertLoop opts swr all sp ls = ls.map (convertLinePure opts swr) := by
  intro ls
  induction ls with
  | nil => intro sp _; rfl
  | cons l ls ih =>
    intro sp h
    have hl := h l (List.mem_cons_self _ _)
    simp only [convertLoop, convertLineStep_no_run_arg opts swr all sp l hl.1 hl.2,
      List.map_cons]
    rw [ih sp (fun x hx => h x (List.mem_cons_of_mem _ hx))]

theorem detect_eq_rawStage (ls : List DockerfileLine) :
    detectStagesWithRunCommands ls = (ls.map rawStage).filterMap
      (fun p => if strHasPre (str "RUN ") (toUpperStr (trimSpace p.1)) then some p.2
                else none) := by
  rw [List.filterMap_map]
  rfl

theorem addUserRoot_id_of_no_run (ls : List DockerfileLine)
    (h : ∀ l ∈ ls, l.run = none) : addUserRootDirectives ls = ls := by
  have hcr : ls.filterMap (fun l =>
      if l.run.isSome = true ∧ l.converted ≠ [] then some l.stage else none) = [] := by
    rw [List.filterMap_eq_nil_iff]
    intro l hl
    simp [h l hl]
  dsimp only [addUserRootDirectives]
  rw [hcr]
  simp

/-- Claim C2 (amended): for Dockerfiles none of whose lines carry a `Run` or
`Arg` payload (in particular any document of FROM and opaque lines), a
second `Convert` with the same options returns the first conversion
unchanged. -/
theorem c2_idempotence_amended (d : Dockerfile) (opts : Options)
    (h : ∀ l ∈ d.lines, l.run = none ∧ l.arg = none) :
    (d.convert opts).convert opts = d.convert opts := by
  have harg : ∀ l ∈ d.lines, l.arg = none := fun l hl => (h l hl).2
  have hmark : markArgsUsedAsBase d.lines = d.lines := markArgs_id_of_no_arg _ harg
  have hconv1 : d.convert opts =
      ⟨d.lines.map (convertLinePure opts (detectStagesWithRunCommands d.lines))⟩ := by
    show (⟨addUserRootDirectives (convertLoop opts (detectStagesWithRunCommands d.lines)
      (markArgsUsedAsBase d.lines) (fun _ => []) (markArgsUsedAsBase d.lines))⟩ : Dockerfile) = _
    rw [hmark, convertLoop_no_run_arg opts _ _ d.lines (fun _ => []) h,
      addUserRoot_id_of_no_run]
    intro l hl
    obtain ⟨x, _, rfl⟩ := List.mem_map.mp hl
    rfl
  rw [hconv1]
  have h2 : ∀ l ∈ d.lines.map (convertLinePure opts (detectStagesWithRunCommands d.lines)),
      l.run = none ∧ l.arg = none := by
    intro l hl
    obtain ⟨x, _, rfl⟩ := List.mem_map.mp hl
    exact ⟨rfl, rfl⟩
  have hmark2 := markArgs_id_of_no_arg _ (fun l hl => (h2 l hl).2)
  have hdetect2 : detectStagesWithRunCommands
      (d.lines.map (convertLinePure opts (detectStagesWithRunCommands d.lines))) =
      detectStagesWithRunCommands d.lines := by
    rw [detect_eq_rawStage, List.map_map, detect_eq_rawStage d.lines]
    rfl
  show (⟨addUserRootDirectives (convertLoop opts _ _ (fun _ => []) _)⟩ : Dockerfile) = _
  rw [hmark2, hdetect2, convertLoop_no_run_arg opts _ _ _ (fun _ => []) h2,
    addUserRoot_id_of_no_run]
  · rw [List.map_map]
    rfl
  · intro l hl
    obtain ⟨x, _, rfl⟩ := List.mem_map.mp hl
    rfl

/-- Claim C2 (amended, witness). -/
theorem c2_idempotence_amended_witness :
    (∀ l ∈ (parseDockerfile (str "FROM python:3.9")).lines, l.run = none ∧ l.arg = none) ∧
    (((parseDockerfile (str "FROM python:3.9")).convert defaultOptions).convert
        defaultOptions) =
      (parseDockerfile (str "FROM python:3.9")).convert defaultOptions :=
  ⟨by decide,
   c2_idempotence_amended (parseDockerfile (str "FROM python:3.9")) defaultOptions
     (by decide)⟩

/-! ### Claim C1 (amended): the parser loop accounts for its input -/

theorem splitOnChar_ne_nil (c : Char) : ∀ (s : Str), splitOnChar c s ≠ [] := by
  intro s
  induction s with
  | nil => simp [splitOnChar]
  | cons x xs ih =>
    unfold splitOnChar
    cases hs : splitOnChar c xs with
    | nil => simp
    | cons y ys => by_cases hx : x = c <;> simp [hx]

theorem linesJoin_cons (a : Str) (rest : List Str) :
    linesJoin (a :: rest) = a ++ [nlChar] ++ linesJoin rest := by
  simp [linesJoin]

theorem linesJoin_splitOnChar (s : Str) :
    linesJoin (splitOnChar nlChar s) = s ++ [nlChar] := by
  induction s with
  | nil => simp [splitOnChar, linesJoin]
  | cons x xs ih =>
    by_cases hx : x = nlChar
    · subst hx
      have hcons : splitOnChar nlChar (nlChar :: xs) = [] :: splitOnChar nlChar xs := by
        rw [splitOnChar]
        cases hs : splitOnChar nlChar xs with
        | nil => exact absurd hs (splitOnChar_ne_nil nlChar xs)
        | cons y ys => simp
      rw [hcons, linesJoin_cons, ih]
      simp
    · have hcons : ∃ y ys, splitOnChar nlChar xs = y :: ys ∧
          splitOnChar nlChar (x :: xs) = (x :: y) :: ys := by
        cases hs : splitOnChar nlChar xs with
        | nil => exact absurd hs (splitOnChar_ne_nil nlChar xs)
        | cons y ys =>
          refine ⟨y, ys, rfl, ?_⟩
          rw [splitOnChar, hs]
          simp [hx]
      obtain ⟨y, ys, hs, hc⟩ := hcons
      rw [hc, linesJoin_cons]
      rw [hs, linesJoin_cons] at ih
      simp only [List.cons_append, List.append_assoc] at ih ⊢
      rw [ih]

theorem emitLine_shape (st : ParseState) (h : st.cur ≠ []) :
    ∃ l stg al, emitLine st =
      { extra := [], cur := [], inMulti := st.inMulti, stage := stg, aliases := al,
        lines := st.lines ++ [l] } ∧
      l.raw = st.cur ∧ l.extra = st.extra ∧ l.converted = [] := by
  unfold emitLine
  rw [if_neg h]
  dsimp only
  split
  · exact ⟨_, _, _, rfl, rfl, rfl, rfl⟩
  · split
    · exact ⟨_, _, _, rfl, rfl, rfl, rfl⟩
    · split
      · exact ⟨_, _, _, rfl, rfl, rfl, rfl⟩
      · exact ⟨_, _, _, rfl, rfl, rfl, rfl⟩

theorem emitLine_inMulti (st : ParseState) : (emitLine st).inMulti = st.inMulti := by
  unfold emitLine
  split
  · rfl
  · dsimp only
    split
    · rfl
    · rfl

theorem parseStep_skip (st : ParseState) (l : Str) (hskip : lineSkippable l = true) :
    parseStep st l =
      if st.inMulti then st else { st with extra := st.extra ++ l ++ [nlChar] } := by
  unfold parseStep
  by_cases h1 : trimSpace l = []
  · simp [h1]
  · have h2 : strHasPre (str "#") (trimSpace l) = true := by
      rw [lineSkippable] at hskip
      rcases Bool.or_eq_true_iff.mp hskip with h | h
      · exact absurd (List.isEmpty_iff.mp h) h1
      · exact h
    simp [h1, h2]

theorem parseStep_content (st : ParseState) (l : Str) (hskip : lineSkippable l = false) :
    parseStep st l =
      if st.inMulti then
        (if strHasSuf (str "\\") (trimSpace l) then
          { st with cur := (st.cur ++ l) ++ [nlChar] }
         else emitLine { st with cur := st.cur ++ l, inMulti := false })
      else
        (if strHasSuf (str "\\") (trimSpace l) then
          { st with inMulti := true, cur := l ++ [nlChar] }
         else emitLine { st with cur := l }) := by
  have h1 : trimSpace l ≠ [] := by
    intro he
    rw [lineSkippable, he] at hskip
    simp at hskip
  have h2 : strHasPre (str "#") (trimSpace l) = false := by
    rw [lineSkippable] at hskip
    exact (Bool.or_eq_false_iff.mp hskip).2
  unfold parseStep
  rw [if_neg h1, if_neg (by simp [h2])]

theorem parseStep_inMulti (st : ParseState) (l : Str) :
    (parseStep st l).inMulti =
      if lineSkippable l then st.inMulti else strHasSuf (str "\\") (trimSpace l) := by
  cases hskip : lineSkippable l
  · rw [parseStep_content st l hskip]
    simp only [Bool.false_eq_true, if_false]
    cases hm : st.inMulti <;> cases hsuf : strHasSuf (str "\\") (trimSpace l) <;>
      simp [hm, hsuf, emitLine_inMulti]
  · rw [parseStep_skip st l hskip]
    simp only [hskip, if_true]
    cases hm : st.inMulti <;> simp [hm]

theorem parseInv_step (st : ParseState) (l : Str) (hinv : parseInv st) :
    parseInv (parseStep st l) := by
  obtain ⟨h1, h2, h3, h4⟩ := hinv
  cases hskip : lineSkippable l
  · rw [parseStep_content st l hskip]
    have hl : l ≠ [] := by
      intro he
      subst he
      exact absurd hskip (by decide)
    cases hm : st.inMulti
    · rw [if_neg (by simp [hm])]
      cases hsuf : strHasSuf (str "\\") (trimSpace l)
      · rw [if_neg (by simp [hsuf])]
        obtain ⟨nl_, stg, al, heq, hraw, hextra, hconv⟩ :=
          emitLine_shape { st with cur := l, inMulti := false } hl
        rw [heq]
        refine ⟨fun _ => rfl, ?_, Or.inl rfl, ?_⟩
        · intro hfalse
          simp [hm] at hfalse
        · intro x hx
          rcases List.mem_append.mp hx with hx | hx
          · exact h4 x hx
          · rcases List.mem_singleton.mp hx with rfl
            exact ⟨by rw [hraw]; exact hl, hconv⟩
      · rw [if_pos (by simp [hsuf])]
        refine ⟨?_, ?_, h3, h4⟩
        · intro hfalse
          simp at hfalse
        · intro _
          simp
    · rw [if_pos (by simp [hm])]
      cases hsuf : strHasSuf (str "\\") (trimSpace l)
      · rw [if_neg (by simp [hsuf])]
        have hcur : st.cur ++ l ≠ [] := by simp [hl]
        obtain ⟨nl_, stg, al, heq, hraw, hextra, hconv⟩ :=
          emitLine_shape { st with cur := st.cur ++ l, inMulti := false } hcur
        rw [heq]
        refine ⟨fun _ => rfl, ?_, Or.inl rfl, ?_⟩
        · intro hfalse
          simp at hfalse
        · intro x hx
          rcases List.mem_append.mp hx with hx | hx
          · exact h4 x hx
          · rcases List.mem_singleton.mp hx with rfl
            exact ⟨by rw [hraw]; exact hcur, hconv⟩
      · rw [if_pos (by simp [hsuf])]
        refine ⟨?_, ?_, h3, h4⟩
        · intro hfalse
          simp [hm] at hfalse
        · intro _
          simp
  · rw [parseStep_skip st l hskip]
    cases hm : st.inMulti
    · rw [if_neg (by simp [hm])]
      refine ⟨fun _ => h1 hm, ?_, ?_, h4⟩
      · intro hfalse
        simp [hm] at hfalse
      · right
        exact ⟨st.extra ++ l, by simp⟩
    · rw [if_pos (by simp [hm])]
      exact ⟨h1, h2, h3, h4⟩

theorem parseStep_renderState (st : ParseState) (l : Str) (hinv : parseInv st)
    (hok : ¬(lineSkippable l = true ∧ st.inMulti = true)) :
    renderState (parseStep st l) = renderState st ++ l ++ [nlChar] := by
  obtain ⟨h1, h2, h3, h4⟩ := hinv
  cases hskip : lineSkippable l
  · rw [parseStep_content st l hskip]
    have hl : l ≠ [] := by
      intro he
      subst he
      exact absurd hskip (by decide)
    cases hm : st.inMulti
    · have hcur : st.cur = [] := h1 hm
      rw [if_neg (by simp)]
      cases hsuf : strHasSuf (str "\\") (trimSpace l)
      · rw [if_neg (by simp [hsuf])]
        obtain ⟨nl_, stg, al, heq, hraw, hextra, hconv⟩ :=
          emitLine_shape { st with cur := l, inMulti := false } hl
        rw [heq]
        simp only [renderState, renderMidAll_concat]
        simp [lineRenderMid, hraw, hextra, hconv, hcur, hl, List.append_assoc]
      · rw [if_pos (by simp [hsuf])]
        simp [renderState, hcur, List.append_assoc]
    · rw [if_pos (by simp)]
      cases hsuf : strHasSuf (str "\\") (trimSpace l)
      · rw [if_neg (by simp [hsuf])]
        have hcur2 : st.cur ++ l ≠ [] := by simp [hl]
        obtain ⟨nl_, stg, al, heq, hraw, hextra, hconv⟩ :=
          emitLine_shape { st with cur := st.cur ++ l, inMulti := false } hcur2
        rw [heq]
        simp only [renderState, renderMidAll_concat]
        simp [lineRenderMid, hraw, hextra, hconv, hcur2, List.append_assoc]
      · rw [if_pos (by simp [hsuf])]
        simp [renderState, List.append_assoc]
  · rw [parseStep_skip st l hskip]
    cases hm : st.inMulti
    · rw [if_neg (by simp)]
      simp [renderState, h1 hm, List.append_assoc]
    · exact absurd ⟨hskip, hm⟩ hok

theorem parse_fold :
    ∀ (ls : List Str) (st : ParseState), parseInv st →
      wfLines st.inMulti ls = true →
      parseInv (ls.foldl parseStep st) ∧
      renderState (ls.foldl parseStep st) = renderState st ++ linesJoin ls ∧
      (ls.foldl parseStep st).inMulti = finalInMulti st.inMulti ls := by
  intro ls
  induction ls with
  | nil =>
    intro st hinv _
    exact ⟨hinv, by simp [linesJoin], rfl⟩
  | cons l ls ih =>
    intro st hinv hwf
    cases hskip : lineSkippable l
    · have hwf' : wfLines (strHasSuf (str "\\") (trimSpace l)) ls = true := by
        rw [wfLines, if_neg (by simp [hskip])] at hwf
        exact hwf
      have hok : ¬(lineSkippable l = true ∧ st.inMulti = true) := by
        rintro ⟨hskp, _⟩
        rw [hskip] at hskp
        exact absurd hskp (by simp)
      have hstep_inv := parseInv_step st l hinv
      have hstep_rs := parseStep_renderState st l hinv hok
      have hstep_im : (parseStep st l).inMulti = strHasSuf (str "\\") (trimSpace l) := by
        rw [parseStep_inMulti, if_neg (by simp [hskip])]
      obtain ⟨i1, i2, i3⟩ := ih (parseStep st l) hstep_inv (by rw [hstep_im]; exact hwf')
      refine ⟨by rw [List.foldl_cons]; exact i1, ?_, ?_⟩
      · rw [List.foldl_cons, i2, hstep_rs, linesJoin_cons]
        simp [List.append_assoc]
      · rw [List.foldl_cons, i3, hstep_im, finalInMulti, if_neg (by simp [hskip])]
    · have hparts := hwf
      rw [wfLines, if_pos (by simp [hskip])] at hparts
      simp only [Bool.and_eq_true] at hparts
      obtain ⟨hnm, hwf'⟩ := hparts
      have hm : st.inMulti = false := by
        cases hb : st.inMulti
        · rfl
        · rw [hb] at hnm
          exact absurd hnm (by simp)
      have hok : ¬(lineSkippable l = true ∧ st.inMulti = true) := by
        rintro ⟨_, hm2⟩
        rw [hm] at hm2
        exact absurd hm2 (by simp)
      have hstep_inv := parseInv_step st l hinv
      have hstep_rs := parseStep_renderState st l hinv hok
      have hstep_im : (parseStep st l).inMulti = st.inMulti := by
        rw [parseStep_inMulti, if_pos (by simp [hskip])]
      obtain ⟨i1, i2, i3⟩ := ih (parseStep st l) hstep_inv (by rw [hstep_im]; exact hwf')
      refine ⟨by rw [List.foldl_cons]; exact i1, ?_, ?_⟩
      · rw [List.foldl_cons, i2, hstep_rs, linesJoin_cons]
        simp [List.append_assoc]
      · rw [List.foldl_cons, i3, hstep_im, finalInMulti, if_pos (by simp [hskip])]

theorem lineRenderLast_of_conv_nil (l : DockerfileLine) (hconv : l.converted = []) :
    lineRenderLast l = l.extra ++ l.raw := by
  by_cases hr : l.raw = [] <;> simp [lineRenderLast, hconv, hr]

theorem lineRenderMid_of_conv_nil (l : DockerfileLine) (hconv : l.converted = [])
    (hraw : l.raw ≠ []) : lineRenderMid l = l.extra ++ (l.raw ++ [nlChar]) := by
  simp [lineRenderMid, hconv, hraw]

theorem trimOneSuffix_nl (e : Str) : trimOneSuffix [nlChar] (e ++ [nlChar]) = e := by
  have hsuf : strHasSuf [nlChar] (e ++ [nlChar]) = true := by
    simp [strHasSuf, strHasPre]
  unfold trimOneSuffix
  rw [if_pos hsuf]
  simp

/-- Claim C1 (amended): when no blank or comment line occurs inside a
multi-line continuation, reserializing the parsed Dockerfile reproduces the
input exactly — except that an input ending inside a backslash continuation
gains exactly one trailing newline.  (No newline is ever suppressed.) -/
theorem c1_roundtrip_amended (s : Str)
    (hwf : wfLines false (splitOnChar nlChar s) = true) :
    (parseDockerfile s).toStr =
      s ++ (if finalInMulti false (splitOnChar nlChar s) then [nlChar] else []) := by
  have hinv0 : parseInv {} :=
    ⟨fun _ => rfl, fun h => absurd h (by simp), Or.inl rfl, fun l hl => absurd hl (by simp)⟩
  obtain ⟨hinv, hrs, him⟩ := parse_fold (splitOnChar nlChar s) {} hinv0 hwf
  rw [linesJoin_splitOnChar] at hrs
  have hrs' : renderState ((splitOnChar nlChar s).foldl parseStep {}) = s ++ [nlChar] := by
    rw [hrs]
    simp [renderState, renderMidAll]
  obtain ⟨j1, j2, j3, j4⟩ := hinv
  unfold parseDockerfile Dockerfile.toStr
  dsimp only
  cases hm : ((splitOnChar nlChar s).foldl parseStep {}).inMulti
  · have hfin : finalInMulti false (splitOnChar nlChar s) = false := by rw [← him, hm]
    rw [hfin]
    simp only [Bool.false_eq_true, if_false, List.append_nil]
    by_cases hex : ((splitOnChar nlChar s).foldl parseStep {}).extra = []
    · rw [if_neg (by simp [hex])]
      have hmid : renderMidAll ((splitOnChar nlChar s).foldl parseStep {}).lines =
          s ++ [nlChar] := by
        rw [← hrs']
        simp [renderState, hex, j1 hm]
      rcases List.eq_nil_or_concat' ((splitOnChar nlChar s).foldl parseStep {}).lines with
        hnil | ⟨xs, t, hcat⟩
      · rw [hnil] at hmid
        simp [renderMidAll] at hmid
      · obtain ⟨hraw, hconv⟩ := j4 t (by
          rw [hcat]
          exact List.mem_append_right _ (List.mem_singleton_self t))
        rw [hcat, renderLines_concat, lineRenderLast_of_conv_nil t hconv]
        rw [hcat, renderMidAll_concat, lineRenderMid_of_conv_nil t hconv hraw] at hmid
        have hmid' : (renderMidAll xs ++ (t.extra ++ t.raw)) ++ [nlChar] = s ++ [nlChar] := by
          rw [← hmid]
          simp [List.append_assoc]
        have hsum := List.append_cancel_right hmid'
        exact hsum
    · rw [if_pos hex]
      rcases j3 with h0 | ⟨e, he⟩
      · exact absurd h0 hex
      · rw [renderLines_concat, he, trimOneSuffix_nl,
          lineRenderLast_of_conv_nil _ (by rfl)]
        have hmid : (renderMidAll ((splitOnChar nlChar s).foldl parseStep {}).lines ++ e) ++
            [nlChar] = s ++ [nlChar] := by
          rw [← hrs']
          simp [renderState, he, j1 hm, List.append_assoc]
        have hsum := List.append_cancel_right hmid
        simpa using hsum
  · have hfin : finalInMulti false (splitOnChar nlChar s) = true := by rw [← him, hm]
    rw [hfin]
    simp only [if_true]
    obtain ⟨nl_, stg, al, heq, hraw, hextra, hconv⟩ :=
      emitLine_shape ((splitOnChar nlChar s).foldl parseStep {}) (j2 hm)
    rw [heq]
    dsimp only
    rw [if_neg (by simp)]
    rw [renderLines_concat, lineRenderLast_of_conv_nil _ hconv, hraw, hextra]
    rw [← hrs']
    simp [renderState, List.append_assoc]

/-- Claim C1 (amended, witness): a well-formed document with comments,
blank lines, and a multi-line RUN round-trips byte-identically. -/
theorem c1_roundtrip_amended_witness :
    wfLines false (splitOnChar nlChar (str "# hi\nFROM a\n\nRUN b \\\n    c\n")) = true ∧
    (parseDockerfile (str "# hi\nFROM a\n\nRUN b \\\n    c\n")).toStr =
      str "# hi\nFROM a\n\nRUN b \\\n    c\n" ++
        (if finalInMulti false
            (splitOnChar nlChar (str "# hi\nFROM a\n\nRUN b \\\n    c\n")) then [nlChar]
         else []) :=
  ⟨by decide, c1_roundtrip_amended (str "# hi\nFROM a\n\nRUN b \\\n    c\n") (by decide)⟩
